import Mathlib

/-!
Shallow embedding of the resource-routing and pagination engine of
`@webmasterdevlin/json-server` (file `src/lib/server.ts`, class `JsonServer`).

Records are JSON objects: association lists from field names to scalar JSON
values.  JavaScript numbers that reach the pagination engine are modelled as
`Option Int`: `some n` is an integer value, `none` is `NaN` (the result of
`parseInt` on a non-numeric string).  Nested objects/arrays inside record
fields are not modelled; no verified property depends on them.
-/

namespace JsonServer

/-- A scalar JSON value as stored in a record field.  `vUndef` is JavaScript
`undefined`, the result of reading a missing property. -/
inductive JsVal where
  | vStr (s : String)
  | vNum (n : Int)
  | vBool (b : Bool)
  | vNull
  | vUndef
deriving DecidableEq

/-- JavaScript `String(v)` on a scalar value (used by the router's filtering
and id comparison, which stringify both sides). -/
def jsToString : JsVal → String
  | .vStr s => s
  | .vNum n => toString n
  | .vBool b => if b then ("true") else ("false")
  | .vNull => ("null")
  | .vUndef => ("undefined")

/-- JavaScript truthiness test, negated: `!v` for the modelled scalar values. -/
def jsFalsy : JsVal → Bool
  | .vStr s => s == ("")
  | .vNum n => n == 0
  | .vBool b => !b
  | .vNull => true
  | .vUndef => true

/-- A JSON object (a record of the database): ordered association list from
field name to value.  JavaScript objects have unique keys; all operations
below preserve that. -/
abbrev Obj := List (String × JsVal)

/-- Property read `l[k]` on a JavaScript object/map, `none` when absent. -/
def alGet {β : Type} (l : List (String × β)) (k : String) : Option β :=
  (l.find? (fun p => p.1 == k)).map (fun p => p.2)

/-- Property write `l[k] = v` on a JavaScript object/map: overwrites the
existing binding in place (keeping its position) when the key is present,
appends a new binding at the end otherwise. -/
def alSet {β : Type} : List (String × β) → String → β → List (String × β)
  | [], k, v => [(k, v)]
  | p :: rest, k, v =>
      if p.1 == k then (k, v) :: rest else p :: alSet rest k v

/-- Record field read `item[key]`: missing fields read as `undefined`. -/
def getFieldD (o : Obj) (k : String) : JsVal :=
  (alGet o k).getD JsVal.vUndef

/-- Object spread `{...a, ...b}`: fields of `b` override fields of `a`,
fields only in `a` are retained. -/
def mergeObj (a b : Obj) : Obj :=
  b.foldl (fun acc p => alSet acc p.1 p.2) a

/-- The in-memory database `this.db`: collection name to ordered list of
records (the top-level object of the JSON file). -/
abbrev Database := List (String × List Obj)

/-- `this.db[name]` (`none` when the collection is absent). -/
def dbGet (db : Database) (name : String) : Option (List Obj) :=
  alGet db name

/-- `this.db[name] = coll`. -/
def dbSet (db : Database) (name : String) (coll : List Obj) : Database :=
  alSet db name coll

/-- `Array.prototype.findIndex`, as `Option Nat` instead of `-1`. -/
def findIndexJs {α : Type} (p : α → Bool) : List α → Option Nat
  | [] => none
  | x :: xs => if p x then some 0 else (findIndexJs p xs).map (fun i => i + 1)

/-- Value of a non-empty run of decimal digits. -/
def digitsToNat (cs : List Char) : Nat :=
  cs.foldl (fun a c => a * 10 + (c.toNat - ('0').toNat)) 0

/-- JavaScript `parseInt` restricted to the inputs the server receives
(query-parameter strings): skip leading spaces, optional sign, then the
longest run of decimal digits; `NaN` (here `none`) when no digit follows. -/
def parseIntJs (s : String) : Option Int :=
  let cs := s.data.dropWhile (fun c => c = ' ')
  match cs with
  | '-' :: rest =>
      let ds := rest.takeWhile Char.isDigit
      if ds.isEmpty then none else some (-(digitsToNat ds : Int))
  | '+' :: rest =>
      let ds := rest.takeWhile Char.isDigit
      if ds.isEmpty then none else some ((digitsToNat ds : Int))
  | rest =>
      let ds := rest.takeWhile Char.isDigit
      if ds.isEmpty then none else some ((digitsToNat ds : Int))

/-- JavaScript `v || d` on a number that is an integer or `NaN`:
`NaN` and `0` are falsy and fall through to the default. -/
def jsOrInt (v : Option Int) (d : Int) : Int :=
  match v with
  | none => d
  | some n => if n = 0 then d else n

/-- The coercion `Math.max(1, parseInt(String(v)) || d)` applied by the
pagination engine to `page` and `perPage` (`parseInt(String(·))` is the
identity on integers and `NaN` on `NaN`).  The result is at least 1, so it
is returned as a `Nat`. -/
def coercePos (v : Option Int) (d : Int) : Nat :=
  (max 1 (jsOrInt v d)).toNat

/-- Result object of `getPaginatedData` / `getPaginatedResource` in
`src/lib/server.ts`: the page slice plus flat navigation metadata. -/
structure PaginatedA (α : Type) where
  data : List α
  first : Nat
  prev : Option Nat
  next : Option Nat
  last : Nat
  pages : Nat
  items : Nat
deriving DecidableEq

/-- `JsonServer.getPaginatedData` (src/lib/server.ts lines 184-210):
coerce `page`/`perPage`, slice `collection[start:end]` with
`start = (page-1)*perPage`, `end = min(start+perPage, total)`, and attach
flat metadata, where `totalPages = Math.ceil(total/perPage)` and
`last`/`pages` are `totalPages || 1`. -/
def getPaginatedData {α : Type} (collection : List α)
    (page perPage : Option Int) : PaginatedA α :=
  let p : Nat := coercePos page 1
  let pp : Nat := coercePos perPage 10
  let total := collection.length
  let totalPages := (total + pp - 1) / pp
  let start := (p - 1) * pp
  let e := min (start + pp) total
  let data := (collection.drop start).take (e - start)
  { data := data
    first := 1
    prev := if p > 1 then some (p - 1) else none
    next := if p < totalPages then some (p + 1) else none
    last := if totalPages = 0 then 1 else totalPages
    pages := if totalPages = 0 then 1 else totalPages
    items := total }

/-- `JsonServer.createPaginationMetadata` (src/lib/server.ts lines 159-174):
the flat metadata fields for a total, a current page and a page size. -/
def createPaginationMetadata (total page perPage : Nat) : PaginatedA Obj :=
  let totalPages := (total + perPage - 1) / perPage
  { data := []
    first := 1
    prev := if page > 1 then some (page - 1) else none
    next := if page < totalPages then some (page + 1) else none
    last := if totalPages = 0 then 1 else totalPages
    pages := if totalPages = 0 then 1 else totalPages
    items := total }

/-- `JsonServer.continueToIterate` (src/lib/server.ts lines 220-222). -/
def continueToIterate (currentPage pageSize totalItems : Nat) : Bool :=
  currentPage * pageSize < totalItems

/-- `JsonServer.getPaginatedResource` (src/lib/server.ts lines 232-266):
for a missing collection a fixed empty result; otherwise coerce
`page`/`pageSize`, slice the collection and attach the metadata produced by
`createPaginationMetadata`. -/
def getPaginatedResource (db : Database) (resourceName : String)
    (page pageSize : Option Int) : PaginatedA Obj :=
  match dbGet db resourceName with
  | none =>
      { data := [], first := 1, prev := none, next := none,
        last := 1, pages := 1, items := 0 }
  | some collection =>
      let totalItems := collection.length
      let p : Nat := coercePos page 1
      let ps : Nat := coercePos pageSize 10
      let start := (p - 1) * ps
      let e := min (start + ps) totalItems
      let data := (collection.drop start).take (e - start)
      let m := createPaginationMetadata totalItems p ps
      { data := data, first := m.first, prev := m.prev, next := m.next,
        last := m.last, pages := m.pages, items := m.items }

/-- Body of an HTTP response produced by the resource routes. -/
inductive RespBody where
  /-- a single record (create / update / delete responses) -/
  | obj (o : Obj)
  /-- a raw array of records (unpaginated listing) -/
  | list (l : List Obj)
  /-- a Contract-A pagination object (flat metadata) -/
  | pageA (p : PaginatedA Obj)
  /-- a structured error body (its `error` field) -/
  | err (error : String)
deriving DecidableEq

/-- An HTTP response: status code and JSON body. -/
structure Resp where
  status : Nat
  body : RespBody
deriving DecidableEq

/-- JavaScript `a || b` where `a` is an optional query-parameter string
(`undefined` and the empty string are falsy). -/
def jsOrStr (a b : Option String) : Option String :=
  match a with
  | some s => if s == ("") then b else some s
  | none => b

/-- The route-level coercion
`param ? Math.max(1, parseInt(param as string) || d) : d`
of the `GET /:resource` handler (src/lib/server.ts lines 434-435). -/
def paramPos (p : Option String) (d : Int) : Nat :=
  match p with
  | some s => if s == ("") then d.toNat else coercePos (parseIntJs s) d
  | none => d.toNat

/-- Query parameters as Express presents them: name/value string pairs. -/
abbrev Query := List (String × String)

/-- `key.startsWith('_')`: the reserved-parameter test of the filter,
written on the character list so that it evaluates by kernel reduction. -/
def reservedParam (s : String) : Bool :=
  match s.data with
  | c :: _ => c == '_'
  | [] => false

/-- The filter predicate of the `GET /:resource` handler
(src/lib/server.ts lines 418-424): every query parameter whose name does not
start with an underscore must stringify-equal the record's same-named field. -/
def matchesQuery (q : Query) (item : Obj) : Bool :=
  q.all (fun kv => reservedParam kv.1 || jsToString (getFieldD item kv.1) == kv.2)

/-- The `GET /:resource` handler (src/lib/server.ts lines 411-450): filter by
the non-underscore query parameters, then, when `_page` or `_per_page`/`_limit`
is present, return the Contract-A pagination object over the filtered data,
otherwise the filtered array. -/
def getResourceHandler (db : Database) (resource : String) (q : Query) : Resp :=
  let resourceData := (dbGet db resource).getD []
  let filteredData := if q.isEmpty then resourceData
    else resourceData.filter (matchesQuery q)
  let pageParam := alGet q ("_page")
  let perPageParam := jsOrStr (alGet q ("_per_page")) (alGet q ("_limit"))
  if pageParam.isSome || perPageParam.isSome then
    let page := paramPos pageParam 1
    let perPage := paramPos perPageParam 10
    { status := 200,
      body := RespBody.pageA
        (getPaginatedData filteredData (some (page : Int)) (some (perPage : Int))) }
  else
    { status := 200, body := RespBody.list filteredData }

/-- The `GET /:resource/paginate` handler (src/lib/server.ts lines 401-408):
`parseInt(req.query._page) || 1`, `parseInt(req.query._limit) || 10`
(a missing parameter parses to `NaN`), then `getPaginatedResource`;
the status is always 200. -/
def paginateHandler (db : Database) (resource : String) (q : Query) : Resp :=
  let page := jsOrInt ((alGet q ("_page")).bind parseIntJs) 1
  let pageSize := jsOrInt ((alGet q ("_limit")).bind parseIntJs) 10
  { status := 200,
    body := RespBody.pageA
      (getPaginatedResource db resource (some page) (some pageSize)) }

/-- `Date.now().toString()`: the generated id for a create whose body has no
(truthy) id value, as a function of the timestamp. -/
def genId (now : Nat) : String :=
  toString now

/-- The record actually stored by the POST handler: the body, with the id
field overwritten by the generated id when its value is falsy/absent
(src/lib/server.ts lines 491-494). -/
def postEffectiveItem (idField : String) (item : Obj) (now : Nat) : Obj :=
  if jsFalsy (getFieldD item idField) then
    alSet item idField (JsVal.vStr (genId now))
  else
    item

/-- The `POST /:resource` handler (src/lib/server.ts lines 476-509).
`body = none` models a non-object request body; `now` is the value of
`Date.now()`; `saveOk = false` models a failing `saveDatabase()`.
Returns the response and the resulting in-memory database. -/
def postHandler (idField : String) (db : Database) (resource : String)
    (body : Option Obj) (now : Nat) (saveOk : Bool) : Resp × Database :=
  match body with
  | none => ({ status := 400, body := RespBody.err ("Invalid request body") }, db)
  | some newItem =>
      let coll := (dbGet db resource).getD []
      let item := postEffectiveItem idField newItem now
      let db' := dbSet db resource (coll ++ [item])
      if saveOk then
        ({ status := 201, body := RespBody.obj item }, db')
      else
        ({ status := 500, body := RespBody.err ("Failed to save database") }, db')

/-- The `PUT /:resource/:id` handler (src/lib/server.ts lines 512-557):
replace the matched record by the payload with the id field force-set to the
original record's id value. -/
def putHandler (idField : String) (db : Database) (resource id : String)
    (body : Option Obj) (saveOk : Bool) : Resp × Database :=
  match body with
  | none => ({ status := 400, body := RespBody.err ("Invalid request body") }, db)
  | some updateData =>
      match dbGet db resource with
      | none => ({ status := 404, body := RespBody.err ("Resource not found") }, db)
      | some coll =>
          match findIndexJs (fun item => jsToString (getFieldD item idField) == id) coll with
          | none => ({ status := 404, body := RespBody.err ("Item not found") }, db)
          | some idx =>
              let orig := coll.getD idx []
              let upd := alSet updateData idField (getFieldD orig idField)
              let db' := dbSet db resource (coll.set idx upd)
              if saveOk then
                ({ status := 200, body := RespBody.obj upd }, db')
              else
                ({ status := 500, body := RespBody.err ("Failed to save database") }, db')

/-- The `PATCH /:resource/:id` handler (src/lib/server.ts lines 560-606):
store `{...existing, ...payload}` with the id field re-forced to the original
record's id value. -/
def patchHandler (idField : String) (db : Database) (resource id : String)
    (body : Option Obj) (saveOk : Bool) : Resp × Database :=
  match body with
  | none => ({ status := 400, body := RespBody.err ("Invalid request body") }, db)
  | some updateData =>
      match dbGet db resource with
      | none => ({ status := 404, body := RespBody.err ("Resource not found") }, db)
      | some coll =>
          match findIndexJs (fun item => jsToString (getFieldD item idField) == id) coll with
          | none => ({ status := 404, body := RespBody.err ("Item not found") }, db)
          | some idx =>
              let orig := coll.getD idx []
              let upd := alSet (mergeObj orig updateData) idField (getFieldD orig idField)
              let db' := dbSet db resource (coll.set idx upd)
              if saveOk then
                ({ status := 200, body := RespBody.obj upd }, db')
              else
                ({ status := 500, body := RespBody.err ("Failed to save database") }, db')

/-- The `DELETE /:resource/:id` handler (src/lib/server.ts lines 609-644):
splice the matched record out and return it. -/
def deleteHandler (idField : String) (db : Database) (resource id : String)
    (saveOk : Bool) : Resp × Database :=
  match dbGet db resource with
  | none => ({ status := 404, body := RespBody.err ("Resource not found") }, db)
  | some coll =>
      match findIndexJs (fun item => jsToString (getFieldD item idField) == id) coll with
      | none => ({ status := 404, body := RespBody.err ("Item not found") }, db)
      | some idx =>
          let deletedItem := coll.getD idx []
          let db' := dbSet db resource (coll.eraseIdx idx)
          if saveOk then
            ({ status := 200, body := RespBody.obj deletedItem }, db')
          else
            ({ status := 500, body := RespBody.err ("Failed to save database") }, db')

/-- Per-collection id-uniqueness invariant of the data model: the stringified
id-field values of the records are pairwise distinct. -/
def uniqIds (idField : String) (coll : List Obj) : Prop :=
  (coll.map (fun r => jsToString (getFieldD r idField))).Nodup

instance (idField : String) (coll : List Obj) : Decidable (uniqIds idField coll) := by
  unfold uniqIds; infer_instance

/-! Helper lemmas about the association-list model. -/

theorem alGet_alSet_self {β : Type} (l : List (String × β)) (k : String) (v : β) :
    alGet (alSet l k v) k = some v := by
  induction l with
  | nil => simp [alSet, alGet, List.find?]
  | cons hd tl ih =>
      by_cases h : hd.1 = k
      · simp [alSet, alGet, List.find?, h]
      · have h' : (hd.1 == k) = false := by simp [h]
        simp only [alSet, h', Bool.false_eq_true, if_false, alGet, List.find?]
        exact ih

theorem alGet_alSet_ne {β : Type} (l : List (String × β)) (k k' : String) (v : β)
    (h : k' ≠ k) : alGet (alSet l k v) k' = alGet l k' := by
  induction l with
  | nil =>
      have hkk : (k == k') = false := by simp [Ne.symm h]
      simp [alSet, alGet, List.find?, hkk]
  | cons hd tl ih =>
      by_cases hh : hd.1 = k
      · have h1 : (k == k') = false := by simp [Ne.symm h]
        have h2 : (hd.1 == k') = false := by simp [hh, Ne.symm h]
        simp [alSet, alGet, List.find?, hh, h1, h2]
      · have h' : (hd.1 == k) = false := by simp [hh]
        simp only [alSet, h', Bool.false_eq_true, if_false, alGet, List.find?]
        cases hfind : (hd.1 == k') <;> simpa [hfind] using ih

theorem alGet_eq_none_of_not_mem {β : Type} (l : List (String × β)) (k : String)
    (h : k ∉ l.map Prod.fst) : alGet l k = none := by
  induction l with
  | nil => rfl
  | cons hd tl ih =>
      simp only [List.map_cons, List.mem_cons, not_or] at h
      have h1 : (hd.1 == k) = false := by simp [Ne.symm h.1]
      simp only [alGet, List.find?, h1]
      exact ih h.2

theorem alGet_mergeObj (a b : Obj) (k : String)
    (hb : (b.map Prod.fst).Nodup) :
    alGet (mergeObj a b) k = (alGet b k).orElse (fun _ => alGet a k) := by
  induction b generalizing a with
  | nil => simp [mergeObj, alGet, List.find?]
  | cons hd tl ih =>
      simp only [List.map_cons, List.nodup_cons] at hb
      have step : mergeObj a (hd :: tl) = mergeObj (alSet a hd.1 hd.2) tl := rfl
      by_cases hk : hd.1 = k
      · subst hk
        have hnone : alGet tl hd.1 = none :=
          alGet_eq_none_of_not_mem tl hd.1 hb.1
        have hhead : alGet (hd :: tl) hd.1 = some hd.2 := by
          simp [alGet, List.find?]
        rw [step, ih _ hb.2, hnone, hhead]
        simp [alGet_alSet_self]
      · have h1 : (hd.1 == k) = false := by simp [hk]
        have hskip : alGet (hd :: tl) k = alGet tl k := by
          simp [alGet, List.find?, h1]
        rw [step, ih _ hb.2, hskip, alGet_alSet_ne a hd.1 k hd.2 (Ne.symm hk)]

theorem findIndexJs_lt_length {α : Type} (p : α → Bool) (l : List α) (i : Nat)
    (h : findIndexJs p l = some i) : i < l.length := by
  induction l generalizing i with
  | nil => simp [findIndexJs] at h
  | cons hd tl ih =>
      simp only [findIndexJs] at h
      split at h
      · cases h; simp
      · cases hfind : findIndexJs p tl with
        | none => rw [hfind] at h; simp at h
        | some j =>
            rw [hfind] at h
            simp only [Option.map] at h
            cases h
            have hj := ih j hfind
            simp only [List.length_cons]
            omega

theorem list_set_getD_self {α : Type} (l : List α) (i : Nat) (d : α)
    (h : i < l.length) : l.set i (l.getD i d) = l := by
  induction l generalizing i with
  | nil => simp at h
  | cons hd tl ih =>
      cases i with
      | zero => simp [List.getD]
      | succ j =>
          simp only [List.length_cons, Nat.succ_lt_succ_iff] at h
          simpa [List.getD] using ih j h

theorem list_map_set {α β : Type} (l : List α) (i : Nat) (x : α) (f : α → β) :
    (l.set i x).map f = (l.map f).set i (f x) := by
  induction l generalizing i with
  | nil => rfl
  | cons hd tl ih =>
      cases i with
      | zero => simp
      | succ j => simp [ih j]

theorem list_getD_map {α β : Type} (l : List α) (i : Nat) (d : α) (f : α → β) :
    (l.map f).getD i (f d) = f (l.getD i d) := by
  induction l generalizing i with
  | nil => simp [List.getD]
  | cons hd tl ih =>
      cases i with
      | zero => simp [List.getD]
      | succ j => simpa [List.getD] using ih j

theorem nat_toDigits_ne_nil (n : Nat) : Nat.toDigits 10 n ≠ [] := by
  have core : ∀ (fuel n : Nat) (ds : List Char), ds ≠ [] ∨ 0 < fuel →
      Nat.toDigitsCore 10 fuel n ds ≠ [] := by
    intro fuel
    induction fuel with
    | zero =>
        intro n ds h
        rcases h with h | h
        · simpa [Nat.toDigitsCore] using h
        · omega
    | succ f ih =>
        intro n ds _
        simp only [Nat.toDigitsCore]
        split
        · simp
        · exact ih _ _ (Or.inl (by simp))
  exact core (n + 1) n [] (Or.inr (by omega))

theorem genId_ne_empty (now : Nat) : genId now ≠ "" := by
  have h := nat_toDigits_ne_nil now
  intro hc
  apply h
  have : (Nat.toDigits 10 now).asString = "" := hc
  have hdata := congrArg String.data this
  simpa [List.asString] using hdata

theorem coercePos_coe (n : Nat) (d : Int) (h : 1 ≤ n) :
    coercePos (some (n : Int)) d = n := by
  simp only [coercePos, jsOrInt]
  split
  · omega
  · omega

theorem coercePos_eq_one_of_neg (n : Int) (d : Int) (h : n < 0) :
    coercePos (some n) d = 1 := by
  simp only [coercePos, jsOrInt]
  split
  · omega
  · omega

theorem ceil_mul_ge (n pp : Nat) (hpp : 1 ≤ pp) :
    n ≤ ((n + pp - 1) / pp) * pp := by
  have hdm := Nat.div_add_mod (n + pp - 1) pp
  have hmod : (n + pp - 1) % pp < pp := Nat.mod_lt _ (by omega)
  rw [Nat.mul_comm]
  generalize hq : pp * ((n + pp - 1) / pp) = t at hdm
  omega

/-- Claim C1: Contract A pagination is correct.  For every collection of size
`N` and every valid `page >= 1`, `perPage >= 1`, `getPaginatedData` returns the
slice `collection[(page-1)*perPage : min((page-1)*perPage + perPage, N)]`
(whose length is `min(perPage, N - (page-1)*perPage)` with truncated
subtraction), with metadata `first = 1`, `prev = page-1` when `page > 1` else
null, `next = page+1` when `page < ceil(N/perPage)` else null,
`last = pages = ceil(N/perPage)` floored at 1 when `N = 0`, `items = N`;
a page beyond the last yields empty data with `next = null` and
`prev = page-1` unclamped, and page 1 of an empty collection yields
`pages = 1`, `items = 0`, `next = null`, `prev = null`. -/
theorem getPaginatedData_contractA {α : Type} (c : List α) (page perPage : Nat)
    (hp : 1 ≤ page) (hpp : 1 ≤ perPage) :
    (getPaginatedData c (some (page : Int)) (some (perPage : Int))).data =
      (c.drop ((page - 1) * perPage)).take
        (min ((page - 1) * perPage + perPage) c.length - (page - 1) * perPage)
    ∧ (getPaginatedData c (some (page : Int)) (some (perPage : Int))).data.length =
        min perPage (c.length - (page - 1) * perPage)
    ∧ (getPaginatedData c (some (page : Int)) (some (perPage : Int))).first = 1
    ∧ (getPaginatedData c (some (page : Int)) (some (perPage : Int))).prev =
        (if 1 < page then some (page - 1) else none)
    ∧ (getPaginatedData c (some (page : Int)) (some (perPage : Int))).next =
        (if page < (c.length + perPage - 1) / perPage then some (page + 1) else none)
    ∧ (getPaginatedData c (some (page : Int)) (some (perPage : Int))).last =
        (getPaginatedData c (some (page : Int)) (some (perPage : Int))).pages
    ∧ (getPaginatedData c (some (page : Int)) (some (perPage : Int))).pages =
        (if c.length = 0 then 1 else (c.length + perPage - 1) / perPage)
    ∧ (getPaginatedData c (some (page : Int)) (some (perPage : Int))).items = c.length
    ∧ ((getPaginatedData c (some (page : Int)) (some (perPage : Int))).pages < page →
        (getPaginatedData c (some (page : Int)) (some (perPage : Int))).data = []
        ∧ (getPaginatedData c (some (page : Int)) (some (perPage : Int))).next = none
        ∧ (getPaginatedData c (some (page : Int)) (some (perPage : Int))).prev =
            some (page - 1))
    ∧ (c.length = 0 →
        (getPaginatedData c (some (page : Int)) (some (perPage : Int))).pages = 1
        ∧ (getPaginatedData c (some (page : Int)) (some (perPage : Int))).items = 0
        ∧ (getPaginatedData c (some (page : Int)) (some (perPage : Int))).next = none
        ∧ (page = 1 →
            (getPaginatedData c (some (page : Int)) (some (perPage : Int))).prev =
              none)) := by
  have hcp : coercePos (some (page : Int)) 1 = page := coercePos_coe page 1 hp
  have hcpp : coercePos (some (perPage : Int)) 10 = perPage :=
    coercePos_coe perPage 10 hpp
  have hceil : c.length ≤ ((c.length + perPage - 1) / perPage) * perPage :=
    ceil_mul_ge c.length perPage hpp
  have htp0 : (c.length + perPage - 1) / perPage = 0 ↔ c.length = 0 := by
    constructor
    · intro h
      rw [h] at hceil
      omega
    · intro h
      rw [h]
      exact Nat.div_eq_of_lt (by omega)
  refine ⟨?_, ?_, ?_, ?_, ?_, ?_, ?_, ?_, ?_, ?_⟩
  · simp only [getPaginatedData, hcp, hcpp]
  · simp only [getPaginatedData, hcp, hcpp, List.length_take, List.length_drop]
    omega
  · simp only [getPaginatedData, hcp, hcpp]
  · simp only [getPaginatedData, hcp, hcpp]
  · simp only [getPaginatedData, hcp, hcpp]
  · simp only [getPaginatedData, hcp, hcpp]
  · simp only [getPaginatedData, hcp, hcpp]
    by_cases h : (c.length + perPage - 1) / perPage = 0
    · rw [if_pos h, if_pos (htp0.mp h)]
    · rw [if_neg h, if_neg (fun hN => h (htp0.mpr hN))]
  · simp only [getPaginatedData, hcp, hcpp]
  · simp only [getPaginatedData, hcp, hcpp]
    intro hlt
    have ht : (c.length + perPage - 1) / perPage < page := by
      by_cases h0 : (c.length + perPage - 1) / perPage = 0
      · rw [if_pos h0] at hlt
        omega
      · rwa [if_neg h0] at hlt
    have hp2 : 1 < page := by
      by_cases h0 : (c.length + perPage - 1) / perPage = 0
      · rw [if_pos h0] at hlt
        omega
      · have h1 : 0 < (c.length + perPage - 1) / perPage := Nat.pos_of_ne_zero h0
        omega
    have hmul : ((c.length + perPage - 1) / perPage) * perPage ≤
        (page - 1) * perPage :=
      Nat.mul_le_mul_right _ (by omega)
    have hstart : c.length ≤ (page - 1) * perPage := by omega
    have hdropnil : c.drop ((page - 1) * perPage) = [] :=
      List.drop_eq_nil_of_le (by simpa using hstart)
    refine ⟨?_, ?_, ?_⟩
    · rw [hdropnil, List.take_nil]
    · rw [if_neg (by omega)]
    · rw [if_pos hp2]
  · simp only [getPaginatedData, hcp, hcpp]
    intro hN
    have ht0 : (c.length + perPage - 1) / perPage = 0 := htp0.mpr hN
    refine ⟨?_, hN, ?_, ?_⟩
    · rw [if_pos ht0]
    · rw [ht0, if_neg (by omega)]
    · intro hp1
      rw [if_neg (by omega)]

theorem getPaginatedData_contractA_witness :
    (1 : Nat) ≤ 2 ∧ (1 : Nat) ≤ 2
    ∧ (getPaginatedData [10, 20, 30]
        (some ((2 : Nat) : Int)) (some ((2 : Nat) : Int))).data = [30]
    ∧ (getPaginatedData [10, 20, 30]
        (some ((2 : Nat) : Int)) (some ((2 : Nat) : Int))).pages = 2 :=
  ⟨by decide, by decide,
   ((getPaginatedData_contractA [10, 20, 30] 2 2 (by decide) (by decide)).1).trans
     (by decide),
   ((getPaginatedData_contractA [10, 20, 30] 2 2 (by decide)
       (by decide)).2.2.2.2.2.2.1).trans (by decide)⟩

/-- Claim C9: the two pagination contract paths agree on the data slice.
For every database, resource name, `page` and `perPage`, the slice computed
by `getPaginatedResource` (the dedicated `/paginate` endpoint path) equals
the slice computed by `getPaginatedData` (the listing endpoint path) on the
resource's collection (empty when the collection is absent). -/
theorem contracts_agree_on_slice (db : Database) (name : String)
    (page perPage : Option Int) :
    (getPaginatedResource db name page perPage).data =
      (getPaginatedData ((dbGet db name).getD []) page perPage).data := by
  cases h : dbGet db name with
  | none => simp [getPaginatedResource, getPaginatedData, h]
  | some coll => simp [getPaginatedResource, getPaginatedData,
      createPaginationMetadata, h]

/-- Claim C2 (divergence witness): the `GET /:resource/paginate` handler of
`src/lib/server.ts` answers 200 but with the flat Contract-A metadata object
(`first`/`prev`/`next`/`last`/`pages`/`items`) — there is no nested
`pagination` object and no `hasMore`/`currentPage` fields, contrary to the
Contract-B shape required by the specification and expected by the
repository's own test suite for this endpoint. -/
theorem paginateHandler_returns_flat_contractA :
    paginateHandler [(("posts"),
        [[(("id"), JsVal.vStr ("1"))], [(("id"), JsVal.vStr ("2"))],
         [(("id"), JsVal.vStr ("3"))]])] ("posts") [] =
      { status := 200,
        body := RespBody.pageA
          { data := [[(("id"), JsVal.vStr ("1"))], [(("id"), JsVal.vStr ("2"))],
             [(("id"), JsVal.vStr ("3"))]],
            first := 1, prev := none, next := none,
            last := 1, pages := 1, items := 3 } } := by
  decide

/-- Claim C3 (counterexample): a negative `perPage` is clamped to 1 by
`Math.max`, not replaced by the default 10 — on a 20-element collection it
yields 20 pages where the default would yield 2. -/
theorem negative_perPage_clamped_not_default :
    (getPaginatedData (List.range 20) (some (1 : Int)) (some (-5 : Int))).pages = 20
    ∧ (getPaginatedData (List.range 20) (some (1 : Int)) (some (10 : Int))).pages = 2 := by
  decide

/-- Claim C3 (amended): the pagination engine replaces a non-numeric (`NaN`)
or zero `page`/`perPage` input by its default (1 resp. 10), but clamps a
negative numeric input to 1 — for `perPage` this produces 1, not the
default 10. -/
theorem pagination_coercion_defaults {α : Type} (c : List α) (p pp : Option Int)
    (n : Int) (hn : n < 0) :
    getPaginatedData c none pp = getPaginatedData c (some 1) pp
    ∧ getPaginatedData c (some 0) pp = getPaginatedData c (some 1) pp
    ∧ getPaginatedData c (some n) pp = getPaginatedData c (some 1) pp
    ∧ getPaginatedData c p none = getPaginatedData c p (some 10)
    ∧ getPaginatedData c p (some 0) = getPaginatedData c p (some 10)
    ∧ getPaginatedData c p (some n) = getPaginatedData c p (some 1) := by
  have h4 : coercePos (some n) 1 = 1 := coercePos_eq_one_of_neg n 1 hn
  have h8 : coercePos (some n) 10 = 1 := coercePos_eq_one_of_neg n 10 hn
  have e1 : coercePos none 1 = 1 := by decide
  have e2 : coercePos (some 0) 1 = 1 := by decide
  have e3 : coercePos (some 1) 1 = 1 := by decide
  have e5 : coercePos none 10 = 10 := by decide
  have e6 : coercePos (some 0) 10 = 10 := by decide
  have e7 : coercePos (some 10) 10 = 10 := by decide
  have e9 : coercePos (some 1) 10 = 1 := by decide
  refine ⟨?_, ?_, ?_, ?_, ?_, ?_⟩ <;>
    simp only [getPaginatedData, h4, h8, e1, e2, e3, e5, e6, e7, e9]

theorem pagination_coercion_defaults_witness :
    ((-5 : Int) < 0)
    ∧ getPaginatedData [0, 1, 2] (some (-5 : Int)) (some (10 : Int)) =
        getPaginatedData [0, 1, 2] (some 1) (some 10)
    ∧ getPaginatedData [0, 1, 2] (some (1 : Int)) (some (-5 : Int)) =
        getPaginatedData [0, 1, 2] (some (1 : Int)) (some 1) :=
  ⟨by decide,
   (pagination_coercion_defaults [0, 1, 2] (some 1) (some 10) (-5)
      (by decide)).2.2.1,
   (pagination_coercion_defaults [0, 1, 2] (some 1) (some 10) (-5)
      (by decide)).2.2.2.2.2⟩

/-- Claim C6 (counterexample): with query `?foo=undefined`, a record that has
no `foo` field is kept by the filter, because `String(item.foo)` is the
string `undefined` — so a record missing the queried field can match. -/
theorem missing_field_matches_undefined_query :
    matchesQuery [(("foo"), ("undefined"))] [(("id"), JsVal.vStr ("1"))] = true
    ∧ (getResourceHandler [(("posts"), [[(("id"), JsVal.vStr ("1"))]])] ("posts")
        [(("foo"), ("undefined"))]).body =
      RespBody.list [[(("id"), JsVal.vStr ("1"))]] := by
  decide

/-- Claim C6 (amended): on the plain listing endpoint a record is kept iff
every query parameter whose name does not start with an underscore
stringify-matches the record's same-named field, where a record missing the
field matches exactly when the query value is the literal string
`undefined` (the rendering of JavaScript `undefined`); underscore-prefixed
parameters never participate; and every record in a paginated listing
response satisfies the filter (filtering runs before pagination). -/
theorem filtering_characterization :
    (∀ (q : Query) (item : Obj),
      matchesQuery q item = true ↔
        ∀ kv ∈ q, reservedParam kv.1 = true ∨
          (match alGet item kv.1 with
           | some w => jsToString w = kv.2
           | none => kv.2 = ("undefined")))
    ∧ (∀ (db : Database) (res : String) (q : Query) (p : PaginatedA Obj),
        (getResourceHandler db res q).body = RespBody.pageA p →
        ∀ x ∈ p.data, matchesQuery q x = true) := by
  constructor
  · intro q item
    rw [matchesQuery, List.all_eq_true]
    refine forall_congr' (fun kv => forall_congr' (fun hkv => ?_))
    rw [Bool.or_eq_true, beq_iff_eq]
    apply or_congr Iff.rfl
    cases h : alGet item kv.1 with
    | some w => simp [getFieldD, h]
    | none =>
        simp only [getFieldD, h, Option.getD_none, jsToString]
        exact eq_comm
  · intro db res q p h x hx
    simp only [getResourceHandler] at h
    split at h
    · simp only [RespBody.pageA.injEq] at h
      rw [← h] at hx
      have hx' : x ∈ (if q.isEmpty then (dbGet db res).getD []
          else ((dbGet db res).getD []).filter (matchesQuery q)) := by
        have h1 := List.take_subset _ _ hx
        exact List.drop_subset _ _ h1
      by_cases hq : q.isEmpty
      · have : q = [] := by
          cases q with
          | nil => rfl
          | cons a l => simp [List.isEmpty] at hq
        rw [this]
        rfl
      · rw [if_neg hq] at hx'
        exact List.of_mem_filter hx'
    · simp at h

theorem filtering_characterization_witness :
    matchesQuery [(("author"), ("deva"))] [(("author"), JsVal.vStr ("deva"))] = true
    ∧ matchesQuery [(("author"), ("deva")), (("_page"), ("1"))]
        [(("author"), JsVal.vStr ("deva"))] = true :=
  ⟨(filtering_characterization.1 [(("author"), ("deva"))]
      [(("author"), JsVal.vStr ("deva"))]).mpr
      (by
        intro kv hkv
        simp only [List.mem_singleton] at hkv
        subst hkv
        right
        simp [alGet, List.find?, jsToString]),
   filtering_characterization.2
     [(("posts"), [[(("author"), JsVal.vStr ("deva"))],
        [(("author"), JsVal.vStr ("x"))]])] ("posts")
     [(("author"), ("deva")), (("_page"), ("1"))]
     { data := [[(("author"), JsVal.vStr ("deva"))]], first := 1, prev := none,
       next := none, last := 1, pages := 1, items := 1 }
     (by decide) [(("author"), JsVal.vStr ("deva"))] (by decide)⟩

theorem uniq_set_preserved (idF : String) (coll : List Obj) (idx : Nat)
    (upd : Obj) (h : idx < coll.length)
    (hid : jsToString (getFieldD upd idF) =
      jsToString (getFieldD (coll.getD idx []) idF))
    (hu : uniqIds idF coll) : uniqIds idF (coll.set idx upd) := by
  unfold uniqIds at hu ⊢
  rw [list_map_set]
  have h2 : jsToString (getFieldD upd idF)
      = (coll.map (fun r => jsToString (getFieldD r idF))).getD idx
          (jsToString (getFieldD ([] : Obj) idF)) := by
    rw [list_getD_map]
    exact hid
  rw [h2, list_set_getD_self]
  · exact hu
  · simpa using h

theorem uniq_eraseIdx_preserved (idF : String) (coll : List Obj) (idx : Nat)
    (hu : uniqIds idF coll) : uniqIds idF (coll.eraseIdx idx) := by
  unfold uniqIds at hu ⊢
  exact List.Nodup.sublist (List.Sublist.map _ (List.eraseIdx_sublist coll idx)) hu

theorem uniq_append_fresh (idF : String) (coll : List Obj) (item : Obj)
    (hfresh : jsToString (getFieldD item idF) ∉
      coll.map (fun r => jsToString (getFieldD r idF)))
    (hu : uniqIds idF coll) : uniqIds idF (coll ++ [item]) := by
  unfold uniqIds at hu ⊢
  rw [List.map_append, List.nodup_append]
  refine ⟨hu, List.nodup_singleton _, ?_⟩
  intro a ha hb
  simp only [List.map_cons, List.map_nil, List.mem_singleton] at hb
  subst hb
  exact hfresh ha

/-- Claim C4 (counterexample): POST performs no duplicate-id check — creating
a record whose body carries an id already present in the collection breaks
per-collection id uniqueness. -/
theorem post_duplicate_id_violates_uniqueness :
    uniqIds ("id") [[(("id"), JsVal.vStr ("1"))]]
    ∧ ¬ uniqIds ("id")
        ((dbGet (postHandler ("id") [(("posts"), [[(("id"), JsVal.vStr ("1"))]])]
            ("posts") (some [(("id"), JsVal.vStr ("1"))]) 7 true).2
          ("posts")).getD []) := by
  decide

theorem dbGet_dbSet_self (db : Database) (n : String) (c : List Obj) :
    dbGet (dbSet db n c) n = some c :=
  alGet_alSet_self db n c

theorem dbGet_dbSet_ne (db : Database) (n m : String) (c : List Obj)
    (h : m ≠ n) : dbGet (dbSet db n c) m = dbGet db m :=
  alGet_alSet_ne db n m c h

theorem uniq_dbSet_pointwise (idF : String) (db : Database) (res n : String)
    (newColl : List Obj)
    (hpres : uniqIds idF ((dbGet db res).getD []) → uniqIds idF newColl)
    (hu : uniqIds idF ((dbGet db n).getD [])) :
    uniqIds idF ((dbGet (dbSet db res newColl) n).getD []) := by
  by_cases hn : n = res
  · subst hn
    rw [dbGet_dbSet_self]
    exact hpres hu
  · rw [dbGet_dbSet_ne _ _ _ _ hn]
    exact hu

/-- Claim C4 (amended): PUT, PATCH and DELETE preserve the per-collection
distinctness of stringified id values; POST (with an object body) preserves
it provided the effective id of the created record — the client-supplied id,
or the generated timestamp id when the body's id is falsy — does not already
occur among the collection's stringified ids; the router never checks for
duplicates on create. -/
theorem routerOps_preserve_unique_ids (idF : String) (db : Database) :
    (∀ (res id : String) (body : Option Obj) (saveOk : Bool) (n : String),
      uniqIds idF ((dbGet db n).getD []) →
      uniqIds idF ((dbGet (putHandler idF db res id body saveOk).2 n).getD []))
    ∧ (∀ (res id : String) (body : Option Obj) (saveOk : Bool) (n : String),
      uniqIds idF ((dbGet db n).getD []) →
      uniqIds idF ((dbGet (patchHandler idF db res id body saveOk).2 n).getD []))
    ∧ (∀ (res id : String) (saveOk : Bool) (n : String),
      uniqIds idF ((dbGet db n).getD []) →
      uniqIds idF ((dbGet (deleteHandler idF db res id saveOk).2 n).getD []))
    ∧ (∀ (res : String) (item : Obj) (now : Nat) (saveOk : Bool) (n : String),
      uniqIds idF ((dbGet db n).getD []) →
      jsToString (getFieldD (postEffectiveItem idF item now) idF) ∉
        ((dbGet db res).getD []).map (fun r => jsToString (getFieldD r idF)) →
      uniqIds idF ((dbGet (postHandler idF db res (some item) now saveOk).2 n).getD [])) := by
  refine ⟨?_, ?_, ?_, ?_⟩
  · intro res id body saveOk n hu
    cases body with
    | none => exact hu
    | some updateData =>
        cases hc : dbGet db res with
        | none => simp only [putHandler, hc]; exact hu
        | some coll =>
            cases hidx : findIndexJs
                (fun item => jsToString (getFieldD item idF) == id) coll with
            | none => simp only [putHandler, hc, hidx]; exact hu
            | some idx =>
                have hlen := findIndexJs_lt_length _ _ _ hidx
                simp only [putHandler, hc, hidx, apply_ite Prod.snd, ite_self]
                apply uniq_dbSet_pointwise idF db res n _ _ hu
                intro hures
                rw [hc] at hures
                apply uniq_set_preserved idF coll idx _ hlen _ hures
                simp [getFieldD, alGet_alSet_self]
  · intro res id body saveOk n hu
    cases body with
    | none => exact hu
    | some updateData =>
        cases hc : dbGet db res with
        | none => simp only [patchHandler, hc]; exact hu
        | some coll =>
            cases hidx : findIndexJs
                (fun item => jsToString (getFieldD item idF) == id) coll with
            | none => simp only [patchHandler, hc, hidx]; exact hu
            | some idx =>
                have hlen := findIndexJs_lt_length _ _ _ hidx
                simp only [patchHandler, hc, hidx, apply_ite Prod.snd, ite_self]
                apply uniq_dbSet_pointwise idF db res n _ _ hu
                intro hures
                rw [hc] at hures
                apply uniq_set_preserved idF coll idx _ hlen _ hures
                simp [getFieldD, alGet_alSet_self]
  · intro res id saveOk n hu
    cases hc : dbGet db res with
    | none => simp only [deleteHandler, hc]; exact hu
    | some coll =>
        cases hidx : findIndexJs
            (fun item => jsToString (getFieldD item idF) == id) coll with
        | none => simp only [deleteHandler, hc, hidx]; exact hu
        | some idx =>
            simp only [deleteHandler, hc, hidx, apply_ite Prod.snd, ite_self]
            apply uniq_dbSet_pointwise idF db res n _ _ hu
            intro hures
            rw [hc] at hures
            exact uniq_eraseIdx_preserved idF coll idx hures
  · intro res item now saveOk n hu hfresh
    simp only [postHandler, apply_ite Prod.snd, ite_self]
    apply uniq_dbSet_pointwise idF db res n _ _ hu
    intro hures
    exact uniq_append_fresh idF _ _ hfresh hures

theorem routerOps_preserve_unique_ids_witness :
    uniqIds ("id") ((dbGet (putHandler ("id")
        [(("posts"), [[(("id"), JsVal.vStr ("1"))], [(("id"), JsVal.vStr ("2"))]])]
        ("posts") ("1") (some [(("title"), JsVal.vStr ("t"))]) true).2
        ("posts")).getD [])
    ∧ uniqIds ("id") ((dbGet (patchHandler ("id")
        [(("posts"), [[(("id"), JsVal.vStr ("1"))], [(("id"), JsVal.vStr ("2"))]])]
        ("posts") ("1") (some [(("title"), JsVal.vStr ("t"))]) true).2
        ("posts")).getD [])
    ∧ uniqIds ("id") ((dbGet (deleteHandler ("id")
        [(("posts"), [[(("id"), JsVal.vStr ("1"))], [(("id"), JsVal.vStr ("2"))]])]
        ("posts") ("1") true).2 ("posts")).getD [])
    ∧ uniqIds ("id") ((dbGet (postHandler ("id")
        [(("posts"), [[(("id"), JsVal.vStr ("1"))], [(("id"), JsVal.vStr ("2"))]])]
        ("posts") (some [(("id"), JsVal.vStr ("3"))]) 9 true).2
        ("posts")).getD []) :=
  ⟨(routerOps_preserve_unique_ids ("id")
      [(("posts"), [[(("id"), JsVal.vStr ("1"))], [(("id"), JsVal.vStr ("2"))]])]).1
      ("posts") ("1") (some [(("title"), JsVal.vStr ("t"))]) true ("posts") (by decide),
   (routerOps_preserve_unique_ids ("id")
      [(("posts"), [[(("id"), JsVal.vStr ("1"))], [(("id"), JsVal.vStr ("2"))]])]).2.1
      ("posts") ("1") (some [(("title"), JsVal.vStr ("t"))]) true ("posts") (by decide),
   (routerOps_preserve_unique_ids ("id")
      [(("posts"), [[(("id"), JsVal.vStr ("1"))], [(("id"), JsVal.vStr ("2"))]])]).2.2.1
      ("posts") ("1") true ("posts") (by decide),
   (routerOps_preserve_unique_ids ("id")
      [(("posts"), [[(("id"), JsVal.vStr ("1"))], [(("id"), JsVal.vStr ("2"))]])]).2.2.2
      ("posts") [(("id"), JsVal.vStr ("3"))] 9 true ("posts") (by decide) (by decide)⟩

theorem list_getD_set_self {α : Type} (l : List α) (i : Nat) (x : α) (d : α)
    (h : i < l.length) : (l.set i x).getD i d = x := by
  induction l generalizing i with
  | nil => simp at h
  | cons hd tl ih =>
      cases i with
      | zero => simp [List.getD]
      | succ j =>
          simp only [List.length_cons, Nat.succ_lt_succ_iff] at h
          simpa [List.getD] using ih j h

/-- Claim C5: id preservation on update.  When PUT or PATCH finds the target
record, the stored record's id field equals the original record's id value,
whatever id the payload carries; for PUT every other stored field is exactly
the payload's field; for PATCH every other stored field is the payload's
field when present, otherwise the original record's field. -/
theorem update_preserves_id (idF : String) (db : Database) (res id : String)
    (payload : Obj) (saveOk : Bool) (coll : List Obj) (idx : Nat)
    (hc : dbGet db res = some coll)
    (hidx : findIndexJs (fun item => jsToString (getFieldD item idF) == id) coll
      = some idx)
    (hnd : (payload.map Prod.fst).Nodup) :
    alGet (((dbGet (putHandler idF db res id (some payload) saveOk).2 res).getD
        []).getD idx []) idF = some (getFieldD (coll.getD idx []) idF)
    ∧ (∀ f, f ≠ idF →
        alGet (((dbGet (putHandler idF db res id (some payload) saveOk).2
            res).getD []).getD idx []) f = alGet payload f)
    ∧ alGet (((dbGet (patchHandler idF db res id (some payload) saveOk).2
        res).getD []).getD idx []) idF = some (getFieldD (coll.getD idx []) idF)
    ∧ (∀ f, f ≠ idF →
        alGet (((dbGet (patchHandler idF db res id (some payload) saveOk).2
            res).getD []).getD idx []) f =
          (alGet payload f).orElse (fun _ => alGet (coll.getD idx []) f)) := by
  have hlen := findIndexJs_lt_length _ _ _ hidx
  have hput : (putHandler idF db res id (some payload) saveOk).2
      = dbSet db res (coll.set idx
          (alSet payload idF (getFieldD (coll.getD idx []) idF))) := by
    simp only [putHandler, hc, hidx, apply_ite Prod.snd, ite_self]
  have hpatch : (patchHandler idF db res id (some payload) saveOk).2
      = dbSet db res (coll.set idx
          (alSet (mergeObj (coll.getD idx []) payload) idF
            (getFieldD (coll.getD idx []) idF))) := by
    simp only [patchHandler, hc, hidx, apply_ite Prod.snd, ite_self]
  refine ⟨?_, ?_, ?_, ?_⟩
  · rw [hput, dbGet_dbSet_self, Option.getD_some, list_getD_set_self _ _ _ _ hlen,
      alGet_alSet_self]
  · intro f hf
    rw [hput, dbGet_dbSet_self, Option.getD_some, list_getD_set_self _ _ _ _ hlen,
      alGet_alSet_ne _ _ _ _ hf]
  · rw [hpatch, dbGet_dbSet_self, Option.getD_some, list_getD_set_self _ _ _ _ hlen,
      alGet_alSet_self]
  · intro f hf
    rw [hpatch, dbGet_dbSet_self, Option.getD_some, list_getD_set_self _ _ _ _ hlen,
      alGet_alSet_ne _ _ _ _ hf, alGet_mergeObj _ _ _ hnd]

theorem update_preserves_id_witness :
    alGet (((dbGet (putHandler ("id")
        [(("posts"), [[(("id"), JsVal.vStr ("1")), (("title"), JsVal.vStr ("old")),
          (("author"), JsVal.vStr ("a"))]])] ("posts") ("1")
        (some [(("id"), JsVal.vStr ("999")), (("title"), JsVal.vStr ("new"))])
        true).2 ("posts")).getD []).getD 0 []) ("id") = some (JsVal.vStr ("1"))
    ∧ alGet (((dbGet (putHandler ("id")
        [(("posts"), [[(("id"), JsVal.vStr ("1")), (("title"), JsVal.vStr ("old")),
          (("author"), JsVal.vStr ("a"))]])] ("posts") ("1")
        (some [(("id"), JsVal.vStr ("999")), (("title"), JsVal.vStr ("new"))])
        true).2 ("posts")).getD []).getD 0 []) ("title") = some (JsVal.vStr ("new"))
    ∧ alGet (((dbGet (patchHandler ("id")
        [(("posts"), [[(("id"), JsVal.vStr ("1")), (("title"), JsVal.vStr ("old")),
          (("author"), JsVal.vStr ("a"))]])] ("posts") ("1")
        (some [(("id"), JsVal.vStr ("999")), (("title"), JsVal.vStr ("new"))])
        true).2 ("posts")).getD []).getD 0 []) ("id") = some (JsVal.vStr ("1"))
    ∧ alGet (((dbGet (patchHandler ("id")
        [(("posts"), [[(("id"), JsVal.vStr ("1")), (("title"), JsVal.vStr ("old")),
          (("author"), JsVal.vStr ("a"))]])] ("posts") ("1")
        (some [(("id"), JsVal.vStr ("999")), (("title"), JsVal.vStr ("new"))])
        true).2 ("posts")).getD []).getD 0 []) ("author") = some (JsVal.vStr ("a")) :=
  ⟨(update_preserves_id ("id")
      [(("posts"), [[(("id"), JsVal.vStr ("1")), (("title"), JsVal.vStr ("old")),
        (("author"), JsVal.vStr ("a"))]])] ("posts") ("1")
      [(("id"), JsVal.vStr ("999")), (("title"), JsVal.vStr ("new"))] true
      [[(("id"), JsVal.vStr ("1")), (("title"), JsVal.vStr ("old")),
        (("author"), JsVal.vStr ("a"))]] 0
      (by decide) (by decide) (by decide)).1,
   (update_preserves_id ("id")
      [(("posts"), [[(("id"), JsVal.vStr ("1")), (("title"), JsVal.vStr ("old")),
        (("author"), JsVal.vStr ("a"))]])] ("posts") ("1")
      [(("id"), JsVal.vStr ("999")), (("title"), JsVal.vStr ("new"))] true
      [[(("id"), JsVal.vStr ("1")), (("title"), JsVal.vStr ("old")),
        (("author"), JsVal.vStr ("a"))]] 0
      (by decide) (by decide) (by decide)).2.1 ("title") (by decide),
   (update_preserves_id ("id")
      [(("posts"), [[(("id"), JsVal.vStr ("1")), (("title"), JsVal.vStr ("old")),
        (("author"), JsVal.vStr ("a"))]])] ("posts") ("1")
      [(("id"), JsVal.vStr ("999")), (("title"), JsVal.vStr ("new"))] true
      [[(("id"), JsVal.vStr ("1")), (("title"), JsVal.vStr ("old")),
        (("author"), JsVal.vStr ("a"))]] 0
      (by decide) (by decide) (by decide)).2.2.1,
   (update_preserves_id ("id")
      [(("posts"), [[(("id"), JsVal.vStr ("1")), (("title"), JsVal.vStr ("old")),
        (("author"), JsVal.vStr ("a"))]])] ("posts") ("1")
      [(("id"), JsVal.vStr ("999")), (("title"), JsVal.vStr ("new"))] true
      [[(("id"), JsVal.vStr ("1")), (("title"), JsVal.vStr ("old")),
        (("author"), JsVal.vStr ("a"))]] 0
      (by decide) (by decide) (by decide)).2.2.2 ("author") (by decide)⟩

/-- Claim C7: persistence failure is non-atomic.  For every mutating
operation whose success path answers 201/200, the same operation with a
failing database save answers 500 with an error body while leaving exactly
the same mutated in-memory database as the success path — the mutation is
not rolled back. -/
theorem saveFailure_nonatomic (idF : String) (db : Database) (res id : String)
    (body : Option Obj) (now : Nat) :
    ((postHandler idF db res body now true).1.status = 201 →
      (postHandler idF db res body now false).1.status = 500
      ∧ (postHandler idF db res body now false).1.body =
          RespBody.err ("Failed to save database")
      ∧ (postHandler idF db res body now false).2 =
          (postHandler idF db res body now true).2)
    ∧ ((putHandler idF db res id body true).1.status = 200 →
      (putHandler idF db res id body false).1.status = 500
      ∧ (putHandler idF db res id body false).1.body =
          RespBody.err ("Failed to save database")
      ∧ (putHandler idF db res id body false).2 =
          (putHandler idF db res id body true).2)
    ∧ ((patchHandler idF db res id body true).1.status = 200 →
      (patchHandler idF db res id body false).1.status = 500
      ∧ (patchHandler idF db res id body false).1.body =
          RespBody.err ("Failed to save database")
      ∧ (patchHandler idF db res id body false).2 =
          (patchHandler idF db res id body true).2)
    ∧ ((deleteHandler idF db res id true).1.status = 200 →
      (deleteHandler idF db res id false).1.status = 500
      ∧ (deleteHandler idF db res id false).1.body =
          RespBody.err ("Failed to save database")
      ∧ (deleteHandler idF db res id false).2 =
          (deleteHandler idF db res id true).2) := by
  refine ⟨?_, ?_, ?_, ?_⟩
  · cases body with
    | none => intro h; simp [postHandler] at h
    | some item => intro h; exact ⟨rfl, rfl, rfl⟩
  · cases body with
    | none => intro h; simp [putHandler] at h
    | some item =>
        cases hc : dbGet db res with
        | none => intro h; simp [putHandler, hc] at h
        | some coll =>
            cases hidx : findIndexJs
                (fun it => jsToString (getFieldD it idF) == id) coll with
            | none => intro h; simp [putHandler, hc, hidx] at h
            | some i =>
                intro h
                refine ⟨?_, ?_, ?_⟩ <;> simp [putHandler, hc, hidx]
  · cases body with
    | none => intro h; simp [patchHandler] at h
    | some item =>
        cases hc : dbGet db res with
        | none => intro h; simp [patchHandler, hc] at h
        | some coll =>
            cases hidx : findIndexJs
                (fun it => jsToString (getFieldD it idF) == id) coll with
            | none => intro h; simp [patchHandler, hc, hidx] at h
            | some i =>
                intro h
                refine ⟨?_, ?_, ?_⟩ <;> simp [patchHandler, hc, hidx]
  · cases hc : dbGet db res with
    | none => intro h; simp [deleteHandler, hc] at h
    | some coll =>
        cases hidx : findIndexJs
            (fun it => jsToString (getFieldD it idF) == id) coll with
        | none => intro h; simp [deleteHandler, hc, hidx] at h
        | some i =>
            intro h
            refine ⟨?_, ?_, ?_⟩ <;> simp [deleteHandler, hc, hidx]

theorem saveFailure_nonatomic_witness :
    (postHandler ("id") [(("posts"), [[(("id"), JsVal.vStr ("1"))]])] ("posts")
        (some [(("t"), JsVal.vStr ("x"))]) 5 false).1.status = 500
    ∧ (putHandler ("id") [(("posts"), [[(("id"), JsVal.vStr ("1"))]])] ("posts")
        ("1") (some [(("t"), JsVal.vStr ("x"))]) false).1.status = 500
    ∧ (patchHandler ("id") [(("posts"), [[(("id"), JsVal.vStr ("1"))]])] ("posts")
        ("1") (some [(("t"), JsVal.vStr ("x"))]) false).1.status = 500
    ∧ (deleteHandler ("id") [(("posts"), [[(("id"), JsVal.vStr ("1"))]])] ("posts")
        ("1") false).1.status = 500 :=
  ⟨((saveFailure_nonatomic ("id") [(("posts"), [[(("id"), JsVal.vStr ("1"))]])]
      ("posts") ("1") (some [(("t"), JsVal.vStr ("x"))]) 5).1 (by decide)).1,
   ((saveFailure_nonatomic ("id") [(("posts"), [[(("id"), JsVal.vStr ("1"))]])]
      ("posts") ("1") (some [(("t"), JsVal.vStr ("x"))]) 5).2.1 (by decide)).1,
   ((saveFailure_nonatomic ("id") [(("posts"), [[(("id"), JsVal.vStr ("1"))]])]
      ("posts") ("1") (some [(("t"), JsVal.vStr ("x"))]) 5).2.2.1 (by decide)).1,
   ((saveFailure_nonatomic ("id") [(("posts"), [[(("id"), JsVal.vStr ("1"))]])]
      ("posts") ("1") (some [(("t"), JsVal.vStr ("x"))]) 5).2.2.2 (by decide)).1⟩

/-- Claim C8 (counterexample): the generated id is `Date.now().toString()`,
which is not collision-resistant — two creates handled at the same
millisecond timestamp receive the same generated id. -/
theorem generated_ids_collide_at_equal_timestamp :
    ((dbGet (postHandler ("id")
        (postHandler ("id") [] ("posts")
          (some [(("title"), JsVal.vStr ("a"))]) 123 true).2
        ("posts") (some [(("title"), JsVal.vStr ("b"))]) 123 true).2
      ("posts")).getD []).map (fun r => getFieldD r ("id"))
    = [JsVal.vStr ("123"), JsVal.vStr ("123")] := by
  decide

/-- Claim C8 (amended): POST with an object body lacking the id field
generates the id `Date.now().toString()` (equal timestamps give equal ids —
not collision-resistant), appends the record to the end of the collection
(creating it when absent), and answers 201 with the created record, whose id
is the non-empty generated string and whose other fields are the body's. -/
theorem create_semantics_timestamp_id (idF : String) (db : Database)
    (res : String) (item : Obj) (now : Nat) (h : alGet item idF = none) :
    (postHandler idF db res (some item) now true).1.status = 201
    ∧ (postHandler idF db res (some item) now true).1.body =
        RespBody.obj (postEffectiveItem idF item now)
    ∧ dbGet (postHandler idF db res (some item) now true).2 res =
        some (((dbGet db res).getD []) ++ [postEffectiveItem idF item now])
    ∧ getFieldD (postEffectiveItem idF item now) idF = JsVal.vStr (genId now)
    ∧ genId now ≠ ""
    ∧ (∀ f, f ≠ idF →
        alGet (postEffectiveItem idF item now) f = alGet item f) := by
  have hfalsy : jsFalsy (getFieldD item idF) = true := by
    rw [getFieldD, h]
    rfl
  have heff : postEffectiveItem idF item now =
      alSet item idF (JsVal.vStr (genId now)) := by
    simp [postEffectiveItem, hfalsy]
  have hdb : (postHandler idF db res (some item) now true).2 =
      dbSet db res (((dbGet db res).getD []) ++ [postEffectiveItem idF item now]) :=
    rfl
  refine ⟨rfl, rfl, ?_, ?_, genId_ne_empty now, ?_⟩
  · rw [hdb, dbGet_dbSet_self]
  · rw [heff]
    simp [getFieldD, alGet_alSet_self]
  · intro f hf
    rw [heff, alGet_alSet_ne _ _ _ _ hf]

theorem create_semantics_timestamp_id_witness :
    (postHandler ("id") [] ("posts")
        (some [(("title"), JsVal.vStr ("x"))]) 42 true).1.status = 201
    ∧ getFieldD (postEffectiveItem ("id") [(("title"), JsVal.vStr ("x"))] 42)
        ("id") = JsVal.vStr ("42")
    ∧ genId 42 ≠ ""
    ∧ alGet (postEffectiveItem ("id") [(("title"), JsVal.vStr ("x"))] 42)
        ("title") = some (JsVal.vStr ("x")) :=
  ⟨(create_semantics_timestamp_id ("id") [] ("posts")
      [(("title"), JsVal.vStr ("x"))] 42 (by decide)).1,
   (create_semantics_timestamp_id ("id") [] ("posts")
      [(("title"), JsVal.vStr ("x"))] 42 (by decide)).2.2.2.1,
   (create_semantics_timestamp_id ("id") [] ("posts")
      [(("title"), JsVal.vStr ("x"))] 42 (by decide)).2.2.2.2.1,
   (create_semantics_timestamp_id ("id") [] ("posts")
      [(("title"), JsVal.vStr ("x"))] 42 (by decide)).2.2.2.2.2
     ("title") (by decide)⟩

/-- Claim C10: falsy-id edge at the create interface.  When the POST body
carries the id field with a falsy value (0, empty string, false or null),
the router overwrites it with the generated timestamp id: the stored id is
the non-empty generated string, it is not falsy, it differs from the
client-supplied value, and the stored record is appended to the collection.
This holds whether or not the save succeeds. -/
theorem falsy_id_overwritten (idF : String) (db : Database) (res : String)
    (item : Obj) (now : Nat) (saveOk : Bool) (v : JsVal)
    (hv : alGet item idF = some v) (hfalsy : jsFalsy v = true) :
    getFieldD (postEffectiveItem idF item now) idF = JsVal.vStr (genId now)
    ∧ jsFalsy (getFieldD (postEffectiveItem idF item now) idF) = false
    ∧ getFieldD (postEffectiveItem idF item now) idF ≠ v
    ∧ dbGet (postHandler idF db res (some item) now saveOk).2 res =
        some (((dbGet db res).getD []) ++ [postEffectiveItem idF item now]) := by
  have hff : jsFalsy (getFieldD item idF) = true := by
    rw [getFieldD, hv]
    exact hfalsy
  have heff : postEffectiveItem idF item now =
      alSet item idF (JsVal.vStr (genId now)) := by
    simp [postEffectiveItem, hff]
  have h1 : getFieldD (postEffectiveItem idF item now) idF =
      JsVal.vStr (genId now) := by
    rw [heff]
    simp [getFieldD, alGet_alSet_self]
  have h2 : jsFalsy (JsVal.vStr (genId now)) = false := by
    simp [jsFalsy]
    exact genId_ne_empty now
  refine ⟨h1, ?_, ?_, ?_⟩
  · rw [h1]
    exact h2
  · rw [h1]
    intro heq
    rw [← heq] at hfalsy
    rw [hfalsy] at h2
    cases h2
  · have hdb : (postHandler idF db res (some item) now saveOk).2 =
        dbSet db res (((dbGet db res).getD []) ++
          [postEffectiveItem idF item now]) := by
      cases saveOk <;> rfl
    rw [hdb, dbGet_dbSet_self]

theorem falsy_id_overwritten_witness :
    getFieldD (postEffectiveItem ("id")
        [(("id"), JsVal.vNull), (("t"), JsVal.vStr ("x"))] 7) ("id") =
      JsVal.vStr ("7")
    ∧ jsFalsy (getFieldD (postEffectiveItem ("id")
        [(("id"), JsVal.vNull), (("t"), JsVal.vStr ("x"))] 7) ("id")) = false
    ∧ getFieldD (postEffectiveItem ("id")
        [(("id"), JsVal.vNull), (("t"), JsVal.vStr ("x"))] 7) ("id") ≠
      JsVal.vNull :=
  ⟨(falsy_id_overwritten ("id") [] ("posts")
      [(("id"), JsVal.vNull), (("t"), JsVal.vStr ("x"))] 7 true JsVal.vNull
      (by decide) (by decide)).1,
   (falsy_id_overwritten ("id") [] ("posts")
      [(("id"), JsVal.vNull), (("t"), JsVal.vStr ("x"))] 7 true JsVal.vNull
      (by decide) (by decide)).2.1,
   (falsy_id_overwritten ("id") [] ("posts")
      [(("id"), JsVal.vNull), (("t"), JsVal.vStr ("x"))] 7 true JsVal.vNull
      (by decide) (by decide)).2.2.1⟩

end JsonServer